import Mathlib

/-!
Shallow embedding of `synapse/media/media_storage.py` (the tiered media
storage coordinator) and proofs of the specification claims about it.

Modelling conventions:
  * Bytes on disk are `List Nat` (one entry per byte).
  * The local filesystem is an association list from absolute paths to
    byte contents; `open(fname, "wb")` writes an empty entry (truncate or
    create), a later close stores the written bytes, `os.remove` deletes
    the entry and raises when the entry is absent.
  * The side effects the claims observe (directory creation, opening the
    local file, the spam check, each storage provider invocation, local
    deletion) are recorded in an event trace, in execution order.
  * Exceptions are values of an `Exc` type threaded through `Except`.
  * `MediaFilePaths` is not part of the excerpted source; per the spec
    its namespaces are disjoint, so each of its path builders is a
    constructor of an inductive type of relative paths.
-/

namespace MediaStorageModel

abbrev Bytes := List Nat

/-- Thumbnail overlay of a `FileInfo` descriptor: `width`, `height`,
`type` (content type) and `method`, as used by `media_storage.py`. -/
structure ThumbnailInfo where
  width : Nat
  height : Nat
  type : String
  method : String
deriving DecidableEq, Repr

/-- The media descriptor (`FileInfo` in `synapse/media/_base.py`): an
optional origin `server_name`, the `file_id`, the `url_cache` flag and an
optional thumbnail overlay.  Python tests `if file_info.server_name:` and
`if file_info.thumbnail:`; server names are non-empty hostnames and the
thumbnail is an object, so both truthiness tests are modelled as
`Option.isSome`. -/
structure FileInfo where
  server_name : Option String
  file_id : String
  url_cache : Bool
  thumbnail : Option ThumbnailInfo
deriving DecidableEq, Repr

/-- Modelled from the spec: the `MediaFilePaths` relative-path builders
(`filepath.py` is not part of the excerpted source).  Spec section 8
states the namespaces are disjoint (non-overlapping path prefixes), so
each `*_rel` builder is modelled as an injective constructor carrying
exactly the key the spec gives for that namespace. -/
inductive RelPath where
  | url_cache_thumbnail_rel (media_id : String) (width height : Nat)
      (content_type method : String)
  | url_cache_filepath_rel (media_id : String)
  | remote_media_thumbnail_rel (server_name file_id : String)
      (width height : Nat) (content_type method : String)
  | remote_media_filepath_rel (server_name file_id : String)
  | local_media_thumbnail_rel (media_id : String) (width height : Nat)
      (content_type method : String)
  | local_media_filepath_rel (media_id : String)
  | remote_media_thumbnail_rel_legacy (server_name file_id : String)
      (width height : Nat) (content_type : String)
deriving DecidableEq, Repr

/-- An absolute local path: `os.path.join(local_media_directory, rel)`. -/
structure AbsPath where
  base : String
  rel : RelPath
deriving DecidableEq, Repr

/-- Model of `os.path.join(base, rel)`. -/
def osPathJoin (base : String) (rel : RelPath) : AbsPath := ⟨base, rel⟩

/-- The local filesystem: an association list from absolute paths to file
contents.  A later write for the same path shadows an earlier entry. -/
abbrev FS := List (AbsPath × Bytes)

/-- Contents at a path, if a file exists there. -/
def fsRead (fs : FS) (p : AbsPath) : Option Bytes :=
  match fs with
  | [] => none
  | (q, b) :: rest => if q = p then some b else fsRead rest p

/-- Model of `os.path.exists`. -/
def fsExists (fs : FS) (p : AbsPath) : Bool := (fsRead fs p).isSome

/-- Create or truncate-and-replace the file at `p` with contents `b`. -/
def fsWrite (fs : FS) (p : AbsPath) (b : Bytes) : FS := (p, b) :: fs

/-- Delete every entry for path `p`. -/
def fsRemove (fs : FS) (p : AbsPath) : FS := fs.filter (fun e => e.1 ≠ p)

/-- Exceptions the modelled code can raise.  `SpamMediaException` is
declared in the source as a subclass of `NotFoundError`; `other` stands
for any further exception (I/O errors, provider failures, ...). -/
inductive Exc where
  | SpamMediaException (errcode : String)
  | NotFoundError
  | other (msg : String)
deriving DecidableEq, Repr

/-- Whether an exception is classified as not-found to callers: true for
`NotFoundError` and for its subclass `SpamMediaException`
(`class SpamMediaException(NotFoundError)` in the source). -/
def Exc.isNotFound : Exc → Bool
  | .SpamMediaException _ => true
  | .NotFoundError => true
  | .other _ => false

/-- Model of `os.remove`: deletes the file, raising (like Python
`FileNotFoundError`) when no file exists at the path. -/
def osRemove (fs : FS) (p : AbsPath) : Except Exc FS :=
  if fsExists fs p then .ok (fsRemove fs p)
  else .error (.other "FileNotFoundError")

/-- Verdict of the spam-checker callbacks: the distinguished `NOT_SPAM`
value, or a rejection carrying the error code that the source reads as
`spam_check[0]`. -/
inductive SpamVerdict where
  | NOT_SPAM
  | reject (errcode : String)
deriving DecidableEq, Repr

/-- A responder streaming a located file: either a `FileResponder` over a
just-opened local file, or a responder handed back by a storage provider
carrying the bytes it will stream. -/
inductive Responder where
  | fileResponder (p : AbsPath)
  | providerResponder (data : Bytes)
deriving DecidableEq, Repr

/-- The bytes a responder streams into a consumer
(`write_to_consumer`), given the filesystem its file lives in. -/
def Responder.dataIn (fs : FS) : Responder → Bytes
  | .fileResponder p => (fsRead fs p).getD []
  | .providerResponder d => d

/-- A storage provider (`StorageProvider`): `store_file` replicates a
local file under its relative path and may fail; `fetch` returns a
responder for a relative path, or nothing. -/
structure Provider where
  store_file : RelPath → FileInfo → Except Exc Unit
  fetch : RelPath → FileInfo → Option Responder

/-- Observable side effects, recorded in execution order.  Provider
events carry the zero-based priority index of the provider invoked and
the relative path passed to it. -/
inductive Event where
  | makedirs (p : AbsPath)
  | openWrite (p : AbsPath)
  | spamCheckEv
  | providerStoreEv (i : Nat) (path : RelPath)
  | providerFetchEv (i : Nat) (path : RelPath)
  | removeEv (p : AbsPath)
deriving DecidableEq, Repr

/-- The fixed collaborators of a `MediaStorage` instance: the base media
directory, the ordered provider list, and the spam-checker callback,
which receives the freshly written local bytes (streamed to it through
`ReadableFileWrapper`) and the descriptor. -/
structure MediaStorageEnv where
  local_media_directory : String
  storage_providers : List Provider
  check_media_file_for_spam : Bytes → FileInfo → SpamVerdict

/-- `MediaStorage._file_info_to_path`: converts a descriptor into a
relative path, checking `url_cache` first, then `server_name`, then the
local namespace, with the thumbnail overlay selecting the thumbnail
variant of the chosen namespace. -/
def _file_info_to_path (file_info : FileInfo) : RelPath :=
  if file_info.url_cache then
    match file_info.thumbnail with
    | some t =>
        .url_cache_thumbnail_rel file_info.file_id t.width t.height
          t.type t.method
    | none => .url_cache_filepath_rel file_info.file_id
  else
    match file_info.server_name with
    | some sn =>
        match file_info.thumbnail with
        | some t =>
            .remote_media_thumbnail_rel sn file_info.file_id t.width
              t.height t.type t.method
        | none => .remote_media_filepath_rel sn file_info.file_id
    | none =>
        match file_info.thumbnail with
        | some t =>
            .local_media_thumbnail_rel file_info.file_id t.width t.height
              t.type t.method
        | none => .local_media_filepath_rel file_info.file_id

/-- Result of a store operation: the final filesystem, the event trace,
and either the absolute path written (`fname`) or the exception raised. -/
structure StoreResult where
  fs : FS
  events : List Event
  result : Except Exc AbsPath
deriving Repr

/-- The `except Exception` cleanup block of `store_into_file`: best-effort
`os.remove(fname)` with any deletion error swallowed (`except ...: pass`),
then `raise e from None` re-raising the original exception. -/
def storeCleanup (fs : FS) (fname : AbsPath) (events : List Event)
    (e : Exc) : StoreResult :=
  match osRemove fs fname with
  | .ok fs2 => ⟨fs2, events ++ [.removeEv fname], .error e⟩
  | .error _ => ⟨fs, events ++ [.removeEv fname], .error e⟩

/-- The replication loop of `store_into_file`: for each provider in
priority order, `await provider.store_file(path, file_info)`.  `i` is the
priority index of the first provider in the list; an invocation event is
recorded for every call made, and the first failure stops the loop. -/
def providerStoreLoop (providers : List Provider) (i : Nat)
    (path : RelPath) (file_info : FileInfo) :
    List Event × Except Exc Unit :=
  match providers with
  | [] => ([], .ok ())
  | pr :: rest =>
    match pr.store_file path file_info with
    | .ok _ =>
      let r := providerStoreLoop rest (i + 1) path file_info
      (.providerStoreEv i path :: r.1, r.2)
    | .error e => ([.providerStoreEv i path], .error e)

/-- `MediaStorage.store_into_file`, the scoped write handle.  The body of
the `async with` block is `body`: it receives `fname` (the resolved
absolute path whose open handle is yielded alongside it) and either
raises, or returns the bytes it wrote into the handle.  The steps mirror
the source: resolve the path, `os.makedirs` on the parent directory,
`open(fname, "wb")` (create or truncate), run the body, on normal exit
run the spam check over the written file and then replicate to every
provider in order; on any exception run `storeCleanup`. -/
def store_into_file (env : MediaStorageEnv) (fs : FS)
    (file_info : FileInfo) (body : AbsPath → Except Exc Bytes) :
    StoreResult :=
  let path := _file_info_to_path file_info
  let fname := osPathJoin env.local_media_directory path
  let events0 := [Event.makedirs fname, Event.openWrite fname]
  let fs0 := fsWrite fs fname []
  match body fname with
  | .error e => storeCleanup fs0 fname events0 e
  | .ok written =>
    let fs1 := fsWrite fs0 fname written
    let events1 := events0 ++ [Event.spamCheckEv]
    match env.check_media_file_for_spam written file_info with
    | .reject errcode =>
      storeCleanup fs1 fname events1 (.SpamMediaException errcode)
    | .NOT_SPAM =>
      let r := providerStoreLoop env.storage_providers 0 path file_info
      match r.2 with
      | .ok _ => ⟨fs1, events1 ++ r.1, .ok fname⟩
      | .error e => storeCleanup fs1 fname (events1 ++ r.1) e

/-- An open binary stream (Python file-like object): its full contents
and the current read position. -/
structure IOStream where
  contents : Bytes
  pos : Nat
deriving DecidableEq, Repr

/-- `_write_file_synchronously(source, dest)`: `source.seek(0)` then
`shutil.copyfileobj(source, dest)`, which copies from the current
position to end of file.  Returns the bytes written to `dest` and the
exhausted source stream. -/
def _write_file_synchronously (source : IOStream) : Bytes × IOStream :=
  let rewound : IOStream := { source with pos := 0 }
  (rewound.contents.drop rewound.pos,
   { rewound with pos := rewound.contents.length })

/-- `MediaStorage.store_file`: open the scoped write handle and copy
`source` into it (via `write_to_file`, which defers
`_write_file_synchronously` to a worker thread); returns `fname`. -/
def store_file (env : MediaStorageEnv) (fs : FS) (source : IOStream)
    (file_info : FileInfo) : StoreResult :=
  store_into_file env fs file_info
    (fun _ => .ok (_write_file_synchronously source).1)

/-- The candidate relative paths of `fetch_media`: the primary resolved
path, plus the legacy method-omitting thumbnail path when the descriptor
has both a thumbnail and a server_name. -/
def fetch_media_paths (file_info : FileInfo) : List RelPath :=
  match file_info.thumbnail, file_info.server_name with
  | some t, some sn =>
    [_file_info_to_path file_info,
     .remote_media_thumbnail_rel_legacy sn file_info.file_id t.width
       t.height t.type]
  | _, _ => [_file_info_to_path file_info]

/-- The first loop of `fetch_media`: for each candidate path in order,
check `os.path.exists` on the joined local path, returning the first
local path that exists. -/
def localLookup (base : String) (fs : FS) : List RelPath → Option AbsPath
  | [] => none
  | p :: rest =>
    let lp := osPathJoin base p
    if fsExists fs lp then some lp else localLookup base fs rest

/-- Inner loop of the provider fallback of `fetch_media`: try each
candidate path against one provider (priority index `i`), recording each
invocation and returning the first non-empty result. -/
def tryPaths (pr : Provider) (i : Nat) (file_info : FileInfo) :
    List RelPath → List Event × Option Responder
  | [] => ([], none)
  | p :: rest =>
    match pr.fetch p file_info with
    | some res => ([.providerFetchEv i p], some res)
    | none =>
      let r := tryPaths pr i file_info rest
      (.providerFetchEv i p :: r.1, r.2)

/-- Outer loop of the provider fallback of `fetch_media`: providers in
priority order, each tried on every candidate path. -/
def providerFetchLoop (providers : List Provider) (i : Nat)
    (paths : List RelPath) (file_info : FileInfo) :
    List Event × Option Responder :=
  match providers with
  | [] => ([], none)
  | pr :: rest =>
    match tryPaths pr i file_info paths with
    | (tr, some res) => (tr, some res)
    | (tr, none) =>
      let r := providerFetchLoop rest (i + 1) paths file_info
      (tr ++ r.1, r.2)

/-- `MediaStorage.fetch_media`: build the candidate paths, return a
`FileResponder` on the first local hit, otherwise fall back to the
providers, returning the events recorded and the responder found. -/
def fetch_media (env : MediaStorageEnv) (fs : FS)
    (file_info : FileInfo) : List Event × Option Responder :=
  let paths := fetch_media_paths file_info
  match localLookup env.local_media_directory fs paths with
  | some lp => ([], some (.fileResponder lp))
  | none => providerFetchLoop env.storage_providers 0 paths file_info

/-- The provider loop of `ensure_media_is_in_local_cache`: fetch the
primary `path` from each provider in priority order; on the first hit,
stream the responder contents into `local_path` (via
`BackgroundFileConsumer`) and return `local_path`; after exhausting all
providers raise `NotFoundError`. -/
def ensureFetchLoop (providers : List Provider) (i : Nat)
    (path : RelPath) (file_info : FileInfo) (fs : FS)
    (local_path : AbsPath) : FS × List Event × Except Exc AbsPath :=
  match providers with
  | [] => (fs, [], .error .NotFoundError)
  | pr :: rest =>
    match pr.fetch path file_info with
    | some res =>
      (fsWrite fs local_path (res.dataIn fs),
       [.providerFetchEv i path], .ok local_path)
    | none =>
      let r := ensureFetchLoop rest (i + 1) path file_info fs local_path
      (r.1, .providerFetchEv i path :: r.2.1, r.2.2)

/-- `MediaStorage.ensure_media_is_in_local_cache`: return the primary
local path if it exists; else, for a descriptor with both a thumbnail
and a server_name, return the legacy local path if that exists; else
create the parent directories and run the provider loop on the primary
path only. -/
def ensure_media_is_in_local_cache (env : MediaStorageEnv) (fs : FS)
    (file_info : FileInfo) : FS × List Event × Except Exc AbsPath :=
  let path := _file_info_to_path file_info
  let local_path := osPathJoin env.local_media_directory path
  if fsExists fs local_path then (fs, [], .ok local_path)
  else
    let fallback :=
      let r := ensureFetchLoop env.storage_providers 0 path file_info fs
        local_path
      (r.1, Event.makedirs local_path :: r.2.1, r.2.2)
    match file_info.thumbnail, file_info.server_name with
    | some t, some sn =>
      let legacy_local_path := osPathJoin env.local_media_directory
        (.remote_media_thumbnail_rel_legacy sn file_info.file_id t.width
          t.height t.type)
      if fsExists fs legacy_local_path then (fs, [], .ok legacy_local_path)
      else fallback
    | _, _ => fallback

/-- `ReadableFileWrapper.CHUNK_SIZE = 2**14`. -/
def CHUNK_SIZE : Nat := 2 ^ 14

/-- Observable steps of `ReadableFileWrapper.write_chunks_to`: a callback
invocation with one chunk, or the zero-duration `clock.sleep(0)` yield. -/
inductive ChunkEvent where
  | callback (chunk : Bytes)
  | sleepZero
deriving DecidableEq, Repr

/-- `ReadableFileWrapper.write_chunks_to`, as the trace of its loop over
the remaining file contents: read up to `CHUNK_SIZE` bytes, break on an
empty read, otherwise invoke the callback with the chunk and sleep for 0
seconds before the next read. -/
def write_chunks_to (contents : Bytes) : List ChunkEvent :=
  if h : contents = [] then []
  else
    .callback (contents.take CHUNK_SIZE) :: .sleepZero ::
      write_chunks_to (contents.drop CHUNK_SIZE)
termination_by contents.length
decreasing_by
  simp only [List.length_drop]
  exact Nat.sub_lt (List.length_pos.mpr h) (by norm_num [CHUNK_SIZE])

/-- The chunk list the spec describes: the file contents split into
consecutive chunks of `CHUNK_SIZE`, the last chunk possibly shorter. -/
def chunksOf (contents : Bytes) : List Bytes :=
  if h : contents = [] then []
  else contents.take CHUNK_SIZE :: chunksOf (contents.drop CHUNK_SIZE)
termination_by contents.length
decreasing_by
  simp only [List.length_drop]
  exact Nat.sub_lt (List.length_pos.mpr h) (by norm_num [CHUNK_SIZE])

/-! Concrete instances used to exercise the theorems on closed inputs. -/

/-- A 32x32 scaled PNG thumbnail overlay. -/
def thumb32 : ThumbnailInfo := ⟨32, 32, "image/png", "scale"⟩

/-- A local, non-thumbnail descriptor. -/
def fiLocal : FileInfo := ⟨none, "mediaid1", false, none⟩

/-- A remote-origin thumbnail descriptor. -/
def fiRemoteThumb : FileInfo := ⟨some "example.org", "rthumb", false, some thumb32⟩

/-- A descriptor with both `url_cache` and a `server_name`. -/
def fiUrlCacheRemote : FileInfo := ⟨some "example.org", "urlmedia", true, some thumb32⟩

/-- A provider whose store succeeds and whose fetch finds nothing. -/
def prOk : Provider := ⟨fun _ _ => .ok (), fun _ _ => none⟩

/-- A provider that serves every fetch with a fixed responder. -/
def prData : Provider := ⟨fun _ _ => .ok (), fun _ _ => some (.providerResponder [7, 7])⟩

/-- An environment whose spam checker rejects everything. -/
def envReject : MediaStorageEnv := ⟨"media", [prOk], fun _ _ => .reject "M_FORBIDDEN"⟩

/-- An environment with two succeeding providers and a passing checker. -/
def envTwo : MediaStorageEnv := ⟨"media", [prOk, prOk], fun _ _ => .NOT_SPAM⟩

/-- An environment where only the second provider serves fetches. -/
def envData : MediaStorageEnv := ⟨"media", [prOk, prData], fun _ _ => .NOT_SPAM⟩

/-- An environment with no providers and a passing checker. -/
def envPlain : MediaStorageEnv := ⟨"media", [], fun _ _ => .NOT_SPAM⟩

/-- A body writing three fixed bytes through the yielded handle. -/
def bodyOk : AbsPath → Except Exc Bytes := fun _ => .ok [1, 2, 3]

/-- The absolute primary path of `fiLocal` under base `"media"`. -/
def fnameLocal : AbsPath := osPathJoin "media" (.local_media_filepath_rel "mediaid1")

/-- A filesystem already holding bytes `[9, 9, 9]` at `fnameLocal`. -/
def fsPre : FS := [(fnameLocal, [9, 9, 9])]

/-- A body writing two fixed bytes through the yielded handle. -/
def bodyTwo : AbsPath → Except Exc Bytes := fun _ => .ok [1, 2]

/-- A filesystem holding the primary path of `fiRemoteThumb`. -/
def fsRemoteThumb : FS :=
  [(osPathJoin "media" (_file_info_to_path fiRemoteThumb), [5])]

/-! Helper lemmas about the filesystem model and the store loops. -/

theorem fsRead_fsWrite_self (fs : FS) (p : AbsPath) (b : Bytes) :
    fsRead (fsWrite fs p b) p = some b := by
  simp [fsRead, fsWrite]

theorem fsRead_fsRemove_self (fs : FS) (p : AbsPath) :
    fsRead (fsRemove fs p) p = none := by
  induction fs with
  | nil => rfl
  | cons e rest ih =>
    by_cases h : e.1 = p
    · simpa [fsRemove, List.filter, h] using ih
    · simpa [fsRemove, fsRead, List.filter, h] using ih

theorem storeCleanup_result (fs : FS) (fname : AbsPath)
    (events : List Event) (e : Exc) :
    (storeCleanup fs fname events e).result = .error e := by
  unfold storeCleanup
  cases osRemove fs fname <;> rfl

theorem storeCleanup_events (fs : FS) (fname : AbsPath)
    (events : List Event) (e : Exc) :
    (storeCleanup fs fname events e).events =
      events ++ [.removeEv fname] := by
  unfold storeCleanup
  cases osRemove fs fname <;> rfl

theorem fsExists_storeCleanup (fs : FS) (fname : AbsPath)
    (events : List Event) (e : Exc) :
    fsExists (storeCleanup fs fname events e).fs fname = false := by
  unfold storeCleanup osRemove
  by_cases h : fsExists fs fname
  · simp only [h, if_true]
    simp [fsExists, fsRead_fsRemove_self]
  · simp only [h]
    simpa using h

theorem getElem?_cons_zero_provider (pr : Provider) (rest : List Provider) :
    (pr :: rest)[0]? = some pr := by simp

theorem providerStoreLoop_ok_events (providers : List Provider) :
    ∀ (i : Nat) (path : RelPath) (fi : FileInfo),
      (providerStoreLoop providers i path fi).2 = .ok () →
      (providerStoreLoop providers i path fi).1 =
        (List.range providers.length).map
          (fun k => .providerStoreEv (i + k) path) := by
  induction providers with
  | nil => intro i path fi _; rfl
  | cons pr rest ih =>
    intro i path fi h
    unfold providerStoreLoop at h ⊢
    cases hs : pr.store_file path fi with
    | ok u =>
      simp only [hs] at h ⊢
      rw [ih (i + 1) path fi h]
      simp only [List.length_cons, List.range_succ_eq_map, List.map_cons,
        List.map_map]
      refine congrArg₂ _ (by rw [Nat.add_zero]) ?_
      refine List.map_congr_left (fun k _ => ?_)
      simp only [Function.comp_apply]
      exact congrArg (fun n => Event.providerStoreEv n path) (by omega)
    | error e => simp [hs] at h

theorem providerStoreLoop_error (providers : List Provider) :
    ∀ (i : Nat) (path : RelPath) (fi : FileInfo) (e : Exc),
      (providerStoreLoop providers i path fi).2 = .error e →
      ∃ (k : Nat) (pr2 : Provider), providers[k]? = some pr2 ∧
        pr2.store_file path fi = .error e := by
  induction providers with
  | nil => intro i path fi e h; simp [providerStoreLoop] at h
  | cons pr rest ih =>
    intro i path fi e h
    unfold providerStoreLoop at h
    cases hs : pr.store_file path fi with
    | ok u => simp only [hs] at h
              obtain ⟨k, pr2, hk, he⟩ := ih (i + 1) path fi e h
              exact ⟨k + 1, pr2, by simpa using hk, he⟩
    | error e2 =>
      simp only [hs] at h
      cases h
      exact ⟨0, pr, getElem?_cons_zero_provider pr rest, hs⟩

theorem providerStoreLoop_head_event (pr : Provider) (rest : List Provider)
    (i : Nat) (path : RelPath) (fi : FileInfo) :
    ∃ tl, (providerStoreLoop (pr :: rest) i path fi).1 =
      Event.providerStoreEv i path :: tl := by
  unfold providerStoreLoop
  cases pr.store_file path fi <;> exact ⟨_, rfl⟩

/-- C1: for every store through the scoped write handle, if any exception
is raised while the handle is open, during the safety check or during
backend replication, then the local file at the resolved path does not
exist after the operation returns, and the exception propagated to the
caller is the original one (raised by the handle body, by the spam gate,
or by a provider store) — never an error of the best-effort deletion,
which is swallowed. -/
theorem store_into_file_failure_cleanup (env : MediaStorageEnv) (fs : FS)
    (fi : FileInfo) (body : AbsPath → Except Exc Bytes) (e : Exc)
    (h : (store_into_file env fs fi body).result = .error e) :
    fsExists (store_into_file env fs fi body).fs
      (osPathJoin env.local_media_directory (_file_info_to_path fi)) = false ∧
    (body (osPathJoin env.local_media_directory (_file_info_to_path fi)) =
        .error e ∨
     (∃ bs c,
        body (osPathJoin env.local_media_directory (_file_info_to_path fi)) =
          .ok bs ∧
        env.check_media_file_for_spam bs fi = .reject c ∧
        e = .SpamMediaException c) ∨
     (∃ (k : Nat) (pr2 : Provider), env.storage_providers[k]? = some pr2 ∧
        pr2.store_file (_file_info_to_path fi) fi = .error e)) := by
  simp only [store_into_file] at h ⊢
  cases hb : body (osPathJoin env.local_media_directory (_file_info_to_path fi)) with
  | error e2 =>
    simp only [hb, storeCleanup_result] at h
    cases h
    exact ⟨fsExists_storeCleanup _ _ _ _, .inl rfl⟩
  | ok bs =>
    simp only [hb] at h ⊢
    cases hv : env.check_media_file_for_spam bs fi with
    | reject c =>
      simp only [hv, storeCleanup_result] at h ⊢
      cases h
      exact ⟨fsExists_storeCleanup _ _ _ _, .inr (.inl ⟨bs, c, rfl, hv, rfl⟩)⟩
    | NOT_SPAM =>
      simp only [hv] at h ⊢
      cases hr : (providerStoreLoop env.storage_providers 0
          (_file_info_to_path fi) fi).2 with
      | ok u => simp [hr] at h
      | error e2 =>
        simp only [hr, storeCleanup_result] at h ⊢
        cases h
        exact ⟨fsExists_storeCleanup _ _ _ _,
          .inr (.inr (providerStoreLoop_error _ _ _ _ _ hr))⟩

theorem store_into_file_failure_cleanup_witness :
    fsExists (store_into_file envReject [] fiLocal bodyOk).fs
      (osPathJoin envReject.local_media_directory (_file_info_to_path fiLocal)) = false ∧
    (bodyOk (osPathJoin envReject.local_media_directory (_file_info_to_path fiLocal)) =
        .error (.SpamMediaException "M_FORBIDDEN") ∨
     (∃ bs c,
        bodyOk (osPathJoin envReject.local_media_directory (_file_info_to_path fiLocal)) =
          .ok bs ∧
        envReject.check_media_file_for_spam bs fiLocal = .reject c ∧
        Exc.SpamMediaException "M_FORBIDDEN" = .SpamMediaException c) ∨
     (∃ (k : Nat) (pr2 : Provider), envReject.storage_providers[k]? = some pr2 ∧
        pr2.store_file (_file_info_to_path fiLocal) fiLocal =
          .error (.SpamMediaException "M_FORBIDDEN"))) :=
  store_into_file_failure_cleanup envReject [] fiLocal bodyOk
    (.SpamMediaException "M_FORBIDDEN") (by rfl)

/-- C2: when the body of the scoped handle completes normally, a spam
verdict other than `NOT_SPAM` makes `store_into_file` raise
`SpamMediaException errcode` — an exception classified as not-found to
callers — with no provider store invoked and the local file deleted;
whereas a `NOT_SPAM` verdict raises no spam error (the outcome is decided
by the replication loop alone) and replication proceeds, the first
configured provider being invoked. -/
theorem store_into_file_spam_gate (env : MediaStorageEnv) (fs : FS)
    (fi : FileInfo) (body : AbsPath → Except Exc Bytes) (bs : Bytes)
    (hb : body (osPathJoin env.local_media_directory (_file_info_to_path fi)) =
      .ok bs) :
    (∀ c, env.check_media_file_for_spam bs fi = .reject c →
      (store_into_file env fs fi body).result =
        .error (.SpamMediaException c) ∧
      (Exc.SpamMediaException c).isNotFound = true ∧
      (store_into_file env fs fi body).events =
        [.makedirs (osPathJoin env.local_media_directory (_file_info_to_path fi)),
         .openWrite (osPathJoin env.local_media_directory (_file_info_to_path fi)),
         .spamCheckEv,
         .removeEv (osPathJoin env.local_media_directory (_file_info_to_path fi))] ∧
      fsExists (store_into_file env fs fi body).fs
        (osPathJoin env.local_media_directory (_file_info_to_path fi)) = false) ∧
    (env.check_media_file_for_spam bs fi = .NOT_SPAM →
      ((store_into_file env fs fi body).result =
        match (providerStoreLoop env.storage_providers 0
            (_file_info_to_path fi) fi).2 with
        | .ok _ => .ok (osPathJoin env.local_media_directory (_file_info_to_path fi))
        | .error e => .error e) ∧
      (∀ (pr : Provider) (rest : List Provider),
        env.storage_providers = pr :: rest →
        Event.providerStoreEv 0 (_file_info_to_path fi) ∈
          (store_into_file env fs fi body).events)) := by
  constructor
  · intro c hv
    simp [store_into_file, hb, hv, storeCleanup_result, storeCleanup_events,
      fsExists_storeCleanup, Exc.isNotFound]
  · intro hv
    constructor
    · simp only [store_into_file, hb, hv]
      cases hr : (providerStoreLoop env.storage_providers 0
          (_file_info_to_path fi) fi).2 with
      | ok u => simp [hr]
      | error e => simp [hr, storeCleanup_result]
    · intro pr rest hp
      simp only [store_into_file, hb, hv]
      obtain ⟨tl, htl⟩ := providerStoreLoop_head_event pr rest 0
        (_file_info_to_path fi) fi
      cases hr : (providerStoreLoop env.storage_providers 0
          (_file_info_to_path fi) fi).2 with
      | ok u =>
        simp only [hr, hp] at htl ⊢
        simp [htl]
      | error e =>
        simp only [hr, hp, storeCleanup_events] at htl ⊢
        simp [htl]

theorem store_into_file_spam_gate_witness :
    (store_into_file envReject [] fiLocal bodyOk).result =
      .error (.SpamMediaException "M_FORBIDDEN") ∧
    (Exc.SpamMediaException "M_FORBIDDEN").isNotFound = true ∧
    (store_into_file envReject [] fiLocal bodyOk).events =
      [.makedirs (osPathJoin envReject.local_media_directory (_file_info_to_path fiLocal)),
       .openWrite (osPathJoin envReject.local_media_directory (_file_info_to_path fiLocal)),
       .spamCheckEv,
       .removeEv (osPathJoin envReject.local_media_directory (_file_info_to_path fiLocal))] ∧
    fsExists (store_into_file envReject [] fiLocal bodyOk).fs
      (osPathJoin envReject.local_media_directory (_file_info_to_path fiLocal)) = false :=
  (store_into_file_spam_gate envReject [] fiLocal bodyOk [1, 2, 3]
    (by rfl)).1 "M_FORBIDDEN" (by rfl)

/-- C9: a successful store records exactly the trace of the source: the
directory creation and local open, then the safety check, then one store
invocation per configured backend, in priority order 0, 1, 2, ... — so
every backend store happens after the local write and the safety check,
and backend `k` completes before backend `k + 1` begins. -/
theorem store_into_file_success_order (env : MediaStorageEnv) (fs : FS)
    (fi : FileInfo) (body : AbsPath → Except Exc Bytes) (a : AbsPath)
    (h : (store_into_file env fs fi body).result = .ok a) :
    a = osPathJoin env.local_media_directory (_file_info_to_path fi) ∧
    (store_into_file env fs fi body).events =
      [.makedirs (osPathJoin env.local_media_directory (_file_info_to_path fi)),
       .openWrite (osPathJoin env.local_media_directory (_file_info_to_path fi)),
       .spamCheckEv] ++
        (List.range env.storage_providers.length).map
          (fun k => .providerStoreEv k (_file_info_to_path fi)) := by
  simp only [store_into_file] at h ⊢
  cases hb : body (osPathJoin env.local_media_directory (_file_info_to_path fi)) with
  | error e =>
    simp only [hb, storeCleanup_result] at h
    cases h
  | ok bs =>
    simp only [hb] at h ⊢
    cases hv : env.check_media_file_for_spam bs fi with
    | reject c =>
      simp only [hv, storeCleanup_result] at h
      cases h
    | NOT_SPAM =>
      simp only [hv] at h ⊢
      cases hr : (providerStoreLoop env.storage_providers 0
          (_file_info_to_path fi) fi).2 with
      | error e =>
        simp only [hr, storeCleanup_result] at h
        cases h
      | ok u =>
        simp only [hr] at h ⊢
        cases h
        refine ⟨rfl, ?_⟩
        have := providerStoreLoop_ok_events env.storage_providers 0
          (_file_info_to_path fi) fi (by rw [hr])
        rw [this]
        simp

theorem store_into_file_success_order_witness :
    osPathJoin "media" (_file_info_to_path fiLocal) =
      osPathJoin envTwo.local_media_directory (_file_info_to_path fiLocal) ∧
    (store_into_file envTwo [] fiLocal bodyOk).events =
      [.makedirs (osPathJoin envTwo.local_media_directory (_file_info_to_path fiLocal)),
       .openWrite (osPathJoin envTwo.local_media_directory (_file_info_to_path fiLocal)),
       .spamCheckEv] ++
        (List.range envTwo.storage_providers.length).map
          (fun k => .providerStoreEv k (_file_info_to_path fiLocal)) :=
  store_into_file_success_order envTwo [] fiLocal bodyOk
    (osPathJoin "media" (_file_info_to_path fiLocal)) (by rfl)

/-- C8: `_write_file_synchronously` seeks the source to offset 0 before
copying, so the bytes written are the full source contents regardless of
the current position; `store_file` copies exactly those bytes through the
scoped handle; and re-running the copy on the same (now exhausted) source
handle writes the same bytes again. -/
theorem store_file_rewinds_source (env : MediaStorageEnv) (fs : FS)
    (source : IOStream) (fi : FileInfo) :
    (_write_file_synchronously source).1 = source.contents ∧
    (∀ n : Nat, (_write_file_synchronously { source with pos := n }).1 =
      (_write_file_synchronously source).1) ∧
    store_file env fs source fi =
      store_into_file env fs fi (fun _ => .ok source.contents) ∧
    (_write_file_synchronously (_write_file_synchronously source).2).1 =
      (_write_file_synchronously source).1 := by
  have h1 : (_write_file_synchronously source).1 = source.contents := by
    simp [_write_file_synchronously]
  refine ⟨h1, ?_, ?_, ?_⟩
  · intro n; simp [_write_file_synchronously]
  · unfold store_file; rw [h1]
  · simp [_write_file_synchronously]

/-- C5: the path resolver applies the first matching rule of the fixed
order — `url_cache` first, then `server_name` presence, then local —
with the thumbnail overlay selecting the thumbnail variant of the chosen
namespace keyed by width, height, content type and method on top of the
base key; in particular a descriptor with `url_cache` set resolves in
the URL-preview-cache namespace whatever its `server_name` is. -/
theorem file_info_to_path_resolution (fi : FileInfo) :
    (fi.url_cache = true →
      ((∀ t, fi.thumbnail = some t →
        _file_info_to_path fi =
          .url_cache_thumbnail_rel fi.file_id t.width t.height t.type t.method) ∧
       (fi.thumbnail = none →
        _file_info_to_path fi = .url_cache_filepath_rel fi.file_id))) ∧
    (fi.url_cache = false →
      ((∀ sn, fi.server_name = some sn →
        ((∀ t, fi.thumbnail = some t →
          _file_info_to_path fi =
            .remote_media_thumbnail_rel sn fi.file_id t.width t.height
              t.type t.method) ∧
         (fi.thumbnail = none →
          _file_info_to_path fi = .remote_media_filepath_rel sn fi.file_id))) ∧
       (fi.server_name = none →
        ((∀ t, fi.thumbnail = some t →
          _file_info_to_path fi =
            .local_media_thumbnail_rel fi.file_id t.width t.height
              t.type t.method) ∧
         (fi.thumbnail = none →
          _file_info_to_path fi = .local_media_filepath_rel fi.file_id))))) := by
  obtain ⟨sn, id, uc, th⟩ := fi
  cases uc <;> cases th <;> cases sn <;> simp [_file_info_to_path]

theorem file_info_to_path_resolution_witness :
    _file_info_to_path fiUrlCacheRemote =
      .url_cache_thumbnail_rel "urlmedia" 32 32 "image/png" "scale" :=
  ((file_info_to_path_resolution fiUrlCacheRemote).1 (by rfl)).1 thumb32 (by rfl)

/-- C6 counterexample: the scoped write handle opens the destination
with mode `"wb"`, not exclusively.  On a filesystem already holding
bytes `[9, 9, 9]` at the resolved path, the store succeeds (the open
does not fail) and the pre-existing bytes are overwritten — refuting the
claim that an open against an existing path fails rather than
overwriting. -/
theorem store_into_file_exclusive_open_counterexample :
    fsExists fsPre fnameLocal = true ∧
    fsRead fsPre fnameLocal = some [9, 9, 9] ∧
    (store_into_file envPlain fsPre fiLocal bodyTwo).result = .ok fnameLocal ∧
    fsRead (store_into_file envPlain fsPre fiLocal bodyTwo).fs fnameLocal =
      some [1, 2] := by
  refine ⟨rfl, rfl, rfl, rfl⟩

/-- C6 (amended): on entry the scoped write handle resolves the path,
creates the parent directories, and opens the destination for writing
with truncation — an open against a path where a file already exists
succeeds and replaces the existing bytes — and yields the writable
handle together with the resolved absolute path (the run depends on the
body only through its behaviour at that path, and a normally completing
body leaves exactly its bytes at that path, whatever was there
before). -/
theorem store_into_file_entry_semantics (env : MediaStorageEnv) (fs : FS)
    (fi : FileInfo) (body : AbsPath → Except Exc Bytes) :
    (∃ rest, (store_into_file env fs fi body).events =
      [.makedirs (osPathJoin env.local_media_directory (_file_info_to_path fi)),
       .openWrite (osPathJoin env.local_media_directory (_file_info_to_path fi))]
        ++ rest) ∧
    (∀ body2 : AbsPath → Except Exc Bytes,
      body2 (osPathJoin env.local_media_directory (_file_info_to_path fi)) =
        body (osPathJoin env.local_media_directory (_file_info_to_path fi)) →
      store_into_file env fs fi body2 = store_into_file env fs fi body) ∧
    (∀ bs, body (osPathJoin env.local_media_directory (_file_info_to_path fi)) =
        .ok bs →
      env.check_media_file_for_spam bs fi = .NOT_SPAM →
      (providerStoreLoop env.storage_providers 0 (_file_info_to_path fi) fi).2 =
        .ok () →
      (store_into_file env fs fi body).result =
        .ok (osPathJoin env.local_media_directory (_file_info_to_path fi)) ∧
      fsRead (store_into_file env fs fi body).fs
        (osPathJoin env.local_media_directory (_file_info_to_path fi)) =
        some bs) := by
  refine ⟨?_, ?_, ?_⟩
  · simp only [store_into_file]
    cases hb : body (osPathJoin env.local_media_directory (_file_info_to_path fi)) with
    | error e =>
      refine ⟨[.removeEv (osPathJoin env.local_media_directory (_file_info_to_path fi))], ?_⟩
      simp [storeCleanup_events]
    | ok bs =>
      cases hv : env.check_media_file_for_spam bs fi with
      | reject c =>
        refine ⟨[.spamCheckEv,
          .removeEv (osPathJoin env.local_media_directory (_file_info_to_path fi))], ?_⟩
        simp [hv, storeCleanup_events]
      | NOT_SPAM =>
        cases hr : (providerStoreLoop env.storage_providers 0
            (_file_info_to_path fi) fi).2 with
        | ok u =>
          refine ⟨.spamCheckEv :: (providerStoreLoop env.storage_providers 0
            (_file_info_to_path fi) fi).1, ?_⟩
          simp [hv, hr]
        | error e =>
          refine ⟨.spamCheckEv :: ((providerStoreLoop env.storage_providers 0
              (_file_info_to_path fi) fi).1 ++
            [.removeEv (osPathJoin env.local_media_directory (_file_info_to_path fi))]), ?_⟩
          simp [hv, hr, storeCleanup_events]
  · intro body2 h2
    simp only [store_into_file, h2]
  · intro bs hb hv hr
    simp [store_into_file, hb, hv, hr, fsRead_fsWrite_self]

theorem store_into_file_entry_semantics_witness :
    (store_into_file envPlain fsPre fiLocal bodyTwo).result =
      .ok (osPathJoin envPlain.local_media_directory (_file_info_to_path fiLocal)) ∧
    fsRead (store_into_file envPlain fsPre fiLocal bodyTwo).fs
      (osPathJoin envPlain.local_media_directory (_file_info_to_path fiLocal)) =
      some [1, 2] :=
  (store_into_file_entry_semantics envPlain fsPre fiLocal bodyTwo).2.2
    [1, 2] (by rfl) (by rfl) (by rfl)

/-! Helper lemmas for the chunked reader. -/

theorem chunksOf_nil : chunksOf [] = [] := by
  unfold chunksOf; simp

theorem chunksOf_cons (bs : Bytes) (h : bs ≠ []) :
    chunksOf bs = bs.take CHUNK_SIZE :: chunksOf (bs.drop CHUNK_SIZE) := by
  rw [chunksOf]; exact dif_neg h

theorem chunksOf_small (bs : Bytes) (h : bs ≠ [])
    (hlen : bs.length ≤ CHUNK_SIZE) : chunksOf bs = [bs] := by
  rw [chunksOf_cons bs h, List.take_of_length_le hlen,
    List.drop_eq_nil_of_le hlen, chunksOf_nil]

theorem chunksOf_flatten (bs : Bytes) : (chunksOf bs).flatten = bs := by
  induction bs using chunksOf.induct with
  | case1 => simp [chunksOf_nil]
  | case2 bs h ih =>
    rw [chunksOf_cons bs h]
    simp only [List.flatten_cons, ih]
    exact List.take_append_drop CHUNK_SIZE bs

theorem chunksOf_mem (bs : Bytes) :
    ∀ c ∈ chunksOf bs, c ≠ [] ∧ c.length ≤ CHUNK_SIZE := by
  induction bs using chunksOf.induct with
  | case1 => simp [chunksOf_nil]
  | case2 bs h ih =>
    rw [chunksOf_cons bs h]
    intro c hc
    rcases List.mem_cons.mp hc with hc | hc
    · subst hc
      constructor
      · simp only [ne_eq, List.take_eq_nil_iff]
        push_neg
        exact ⟨by norm_num [CHUNK_SIZE], h⟩
      · simp only [List.length_take]
        exact min_le_left _ _
    · exact ih c hc

theorem chunksOf_dropLast (bs : Bytes) :
    ∀ c ∈ (chunksOf bs).dropLast, c.length = CHUNK_SIZE := by
  induction bs using chunksOf.induct with
  | case1 => simp [chunksOf_nil]
  | case2 bs h ih =>
    rw [chunksOf_cons bs h]
    by_cases hd : bs.drop CHUNK_SIZE = []
    · rw [hd, chunksOf_nil]
      simp
    · have hne : chunksOf (bs.drop CHUNK_SIZE) ≠ [] := by
        rw [chunksOf_cons _ hd]; exact List.cons_ne_nil _ _
      rw [List.dropLast_cons_of_ne_nil hne]
      intro c hc
      rcases List.mem_cons.mp hc with hc | hc
      · subst hc
        have hlt : CHUNK_SIZE < bs.length := by
          by_contra hle
          exact hd (List.drop_eq_nil_of_le (Nat.le_of_not_lt hle))
        simp [List.length_take, Nat.min_eq_left (Nat.le_of_lt hlt)]
      · exact ih c hc

/-- C7: `write_chunks_to` runs the callback once per chunk, in file
order, over exactly the chunks of the file contents — consecutive
slices of `CHUNK_SIZE = 2 ^ 14` bytes, every chunk but the last full and
the last non-empty — with a zero-duration sleep yielding to the
scheduler after each callback, and stops at end of file; concatenating
the callback chunks reproduces the file contents. -/
theorem write_chunks_to_correct (contents : Bytes) :
    write_chunks_to contents =
      (chunksOf contents).flatMap (fun c => [.callback c, .sleepZero]) ∧
    (chunksOf contents).flatten = contents ∧
    (∀ c ∈ chunksOf contents, c ≠ [] ∧ c.length ≤ CHUNK_SIZE) ∧
    (∀ c ∈ (chunksOf contents).dropLast, c.length = CHUNK_SIZE) := by
  refine ⟨?_, chunksOf_flatten contents, chunksOf_mem contents,
    chunksOf_dropLast contents⟩
  induction contents using write_chunks_to.induct with
  | case1 => rw [write_chunks_to, chunksOf]; simp
  | case2 bs h ih =>
    rw [write_chunks_to, chunksOf_cons bs h]
    simp only [dif_neg h, List.flatMap_cons, ih]
    rfl

theorem write_chunks_to_correct_witness :
    ([1, 2, 3] : Bytes) ≠ [] ∧ ([1, 2, 3] : Bytes).length ≤ CHUNK_SIZE :=
  (write_chunks_to_correct [1, 2, 3]).2.2.1 [1, 2, 3]
    (by rw [chunksOf_small [1, 2, 3] (by decide) (by decide)]
        exact List.mem_singleton_self _)

/-! Helper lemmas for the read path. -/

theorem fetch_media_paths_head (fi : FileInfo) :
    ∃ tl, fetch_media_paths fi = _file_info_to_path fi :: tl := by
  unfold fetch_media_paths
  cases fi.thumbnail <;> cases fi.server_name <;> exact ⟨_, rfl⟩

theorem localLookup_eq (base : String) (fs : FS) (ps : List RelPath) :
    localLookup base fs ps =
      ((ps.filter (fun p => fsExists fs (osPathJoin base p))).head?).map
        (osPathJoin base) := by
  induction ps with
  | nil => rfl
  | cons p rest ih =>
    by_cases h : fsExists fs (osPathJoin base p) <;>
      simp [localLookup, List.filter_cons, h, ih]

theorem tryPaths_snd (pr : Provider) (i : Nat) (fi : FileInfo)
    (ps : List RelPath) :
    (tryPaths pr i fi ps).2 = (ps.filterMap (fun p => pr.fetch p fi)).head? := by
  induction ps with
  | nil => rfl
  | cons p rest ih =>
    unfold tryPaths
    cases h : pr.fetch p fi <;> simp [List.filterMap_cons, h, ih]

theorem providerFetchLoop_snd (paths : List RelPath) (fi : FileInfo)
    (providers : List Provider) :
    ∀ i, (providerFetchLoop providers i paths fi).2 =
      (providers.flatMap
        (fun pr => paths.filterMap (fun p => pr.fetch p fi))).head? := by
  induction providers with
  | nil => intro i; rfl
  | cons pr rest ih =>
    intro i
    rw [List.flatMap_cons, List.head?_append, ← tryPaths_snd pr i fi paths]
    unfold providerFetchLoop
    cases htp : tryPaths pr i fi paths with
    | mk tr o =>
      cases o with
      | some res => simp [htp]
      | none => simp [htp, ih (i + 1)]

theorem tryPaths_two_mem (pr : Provider) (i : Nat) (fi : FileInfo)
    (p1 p2 : RelPath) (h : pr.fetch p1 fi = none) :
    Event.providerFetchEv i p2 ∈ (tryPaths pr i fi [p1, p2]).1 := by
  simp only [tryPaths, h]
  cases h2 : pr.fetch p2 fi <;> simp [h2]

/-- C3: `fetch_media` builds the candidate list — the primary resolved
path, plus the legacy method-omitting path exactly when the descriptor
has both a thumbnail and a server_name — checks the candidates on local
disk first, returning a `FileResponder` on the first candidate that
exists with no backend invoked; with no local candidate it tries the
backends in priority order, each on every candidate path in order, and
returns the first non-empty result, yielding nothing exactly when every
backend returns nothing for every candidate. -/
theorem fetch_media_correct (env : MediaStorageEnv) (fs : FS)
    (fi : FileInfo) :
    (∀ t sn, fi.thumbnail = some t → fi.server_name = some sn →
      fetch_media_paths fi =
        [_file_info_to_path fi,
         .remote_media_thumbnail_rel_legacy sn fi.file_id t.width t.height
           t.type]) ∧
    ((fi.thumbnail = none ∨ fi.server_name = none) →
      fetch_media_paths fi = [_file_info_to_path fi]) ∧
    (localLookup env.local_media_directory fs (fetch_media_paths fi) =
      (((fetch_media_paths fi).filter
          (fun p => fsExists fs (osPathJoin env.local_media_directory p))).head?).map
        (osPathJoin env.local_media_directory)) ∧
    (∀ lp, localLookup env.local_media_directory fs (fetch_media_paths fi) =
        some lp →
      fetch_media env fs fi = ([], some (.fileResponder lp))) ∧
    (localLookup env.local_media_directory fs (fetch_media_paths fi) = none →
      ((fetch_media env fs fi).2 =
        (env.storage_providers.flatMap
          (fun pr => (fetch_media_paths fi).filterMap
            (fun p => pr.fetch p fi))).head? ∧
       ((fetch_media env fs fi).2 = none ↔
        ∀ pr ∈ env.storage_providers, ∀ p ∈ fetch_media_paths fi,
          pr.fetch p fi = none))) := by
  refine ⟨?_, ?_, localLookup_eq _ _ _, ?_, ?_⟩
  · intro t sn ht hsn
    simp [fetch_media_paths, ht, hsn]
  · rintro (h | h)
    · simp [fetch_media_paths, h]
    · cases ht : fi.thumbnail <;> simp [fetch_media_paths, ht, h]
  · intro lp h
    simp [fetch_media, h]
  · intro h
    have hloop : (fetch_media env fs fi).2 =
        (providerFetchLoop env.storage_providers 0 (fetch_media_paths fi) fi).2 := by
      simp [fetch_media, h]
    rw [hloop, providerFetchLoop_snd]
    refine ⟨rfl, ?_⟩
    rw [List.head?_eq_none_iff, List.flatMap_eq_nil_iff]
    constructor
    · intro hall pr hpr p hp
      have := (List.filterMap_eq_nil_iff.mp (hall pr hpr)) p hp
      exact this
    · intro hall pr hpr
      exact List.filterMap_eq_nil_iff.mpr (fun p hp => hall pr hpr p hp)

theorem fetch_media_correct_witness :
    fetch_media envTwo fsRemoteThumb fiRemoteThumb =
      ([], some (.fileResponder
        (osPathJoin "media" (_file_info_to_path fiRemoteThumb)))) :=
  (fetch_media_correct envTwo fsRemoteThumb fiRemoteThumb).2.2.2.1
    (osPathJoin "media" (_file_info_to_path fiRemoteThumb)) (by rfl)

/-! Helper lemmas for the cache-population path. -/

theorem ensureFetchLoop_result (path : RelPath) (fi : FileInfo)
    (lp : AbsPath) (providers : List Provider) :
    ∀ (i : Nat) (fs : FS),
      (ensureFetchLoop providers i path fi fs lp).2.2 =
        match (providers.filterMap (fun pr => pr.fetch path fi)).head? with
        | some _ => .ok lp
        | none => .error .NotFoundError := by
  induction providers with
  | nil => intro i fs; rfl
  | cons pr rest ih =>
    intro i fs
    unfold ensureFetchLoop
    cases hf : pr.fetch path fi with
    | some r => simp [List.filterMap_cons, hf]
    | none => simp [List.filterMap_cons, hf, ih]

theorem ensureFetchLoop_fs (path : RelPath) (fi : FileInfo)
    (lp : AbsPath) (providers : List Provider) :
    ∀ (i : Nat) (fs : FS),
      (ensureFetchLoop providers i path fi fs lp).1 =
        match (providers.filterMap (fun pr => pr.fetch path fi)).head? with
        | some r => fsWrite fs lp (r.dataIn fs)
        | none => fs := by
  induction providers with
  | nil => intro i fs; rfl
  | cons pr rest ih =>
    intro i fs
    unfold ensureFetchLoop
    cases hf : pr.fetch path fi with
    | some r => simp [List.filterMap_cons, hf]
    | none => simp [List.filterMap_cons, hf, ih]

theorem ensureFetchLoop_events (path : RelPath) (fi : FileInfo)
    (lp : AbsPath) (providers : List Provider) :
    ∀ (i : Nat) (fs : FS) (ev : Event),
      ev ∈ (ensureFetchLoop providers i path fi fs lp).2.1 →
      ∃ k, ev = .providerFetchEv k path := by
  induction providers with
  | nil => intro i fs ev h; simp [ensureFetchLoop] at h
  | cons pr rest ih =>
    intro i fs ev h
    unfold ensureFetchLoop at h
    cases hf : pr.fetch path fi with
    | some r =>
      simp only [hf, List.mem_singleton] at h
      exact ⟨i, h⟩
    | none =>
      simp only [hf, List.mem_cons] at h
      rcases h with h | h
      · exact ⟨i, h⟩
      · exact ih (i + 1) fs ev h

theorem ensure_local_hit (env : MediaStorageEnv) (fs : FS) (fi : FileInfo)
    (lp : AbsPath)
    (hl : localLookup env.local_media_directory fs (fetch_media_paths fi) =
      some lp) :
    ensure_media_is_in_local_cache env fs fi = (fs, [], .ok lp) := by
  cases ht : fi.thumbnail with
  | none =>
    simp only [fetch_media_paths, ht, localLookup] at hl
    by_cases h1 : fsExists fs
        (osPathJoin env.local_media_directory (_file_info_to_path fi))
    · simp only [h1, if_true] at hl
      cases hl
      simp [ensure_media_is_in_local_cache, h1]
    · simp [h1] at hl
  | some t =>
    cases hsn : fi.server_name with
    | none =>
      simp only [fetch_media_paths, ht, hsn, localLookup] at hl
      by_cases h1 : fsExists fs
          (osPathJoin env.local_media_directory (_file_info_to_path fi))
      · simp only [h1, if_true] at hl
        cases hl
        simp [ensure_media_is_in_local_cache, h1]
      · simp [h1] at hl
    | some sn =>
      simp only [fetch_media_paths, ht, hsn, localLookup] at hl
      by_cases h1 : fsExists fs
          (osPathJoin env.local_media_directory (_file_info_to_path fi))
      · simp only [h1, if_true] at hl
        cases hl
        simp [ensure_media_is_in_local_cache, h1]
      · by_cases h2 : fsExists fs (osPathJoin env.local_media_directory
            (.remote_media_thumbnail_rel_legacy sn fi.file_id t.width
              t.height t.type))
        · simp only [h1, if_false, h2, if_true, Bool.false_eq_true] at hl
          cases hl
          simp [ensure_media_is_in_local_cache, h1, ht, hsn, h2]
        · simp [h1, h2] at hl

theorem ensure_no_local_reduce (env : MediaStorageEnv) (fs : FS)
    (fi : FileInfo)
    (hl : localLookup env.local_media_directory fs (fetch_media_paths fi) =
      none) :
    ensure_media_is_in_local_cache env fs fi =
      ((ensureFetchLoop env.storage_providers 0 (_file_info_to_path fi) fi fs
          (osPathJoin env.local_media_directory (_file_info_to_path fi))).1,
       .makedirs (osPathJoin env.local_media_directory (_file_info_to_path fi)) ::
         (ensureFetchLoop env.storage_providers 0 (_file_info_to_path fi) fi fs
           (osPathJoin env.local_media_directory (_file_info_to_path fi))).2.1,
       (ensureFetchLoop env.storage_providers 0 (_file_info_to_path fi) fi fs
         (osPathJoin env.local_media_directory (_file_info_to_path fi))).2.2) := by
  cases ht : fi.thumbnail with
  | none =>
    simp only [fetch_media_paths, ht, localLookup] at hl
    by_cases h1 : fsExists fs
        (osPathJoin env.local_media_directory (_file_info_to_path fi))
    · simp [h1] at hl
    · simp [ensure_media_is_in_local_cache, h1, ht]
  | some t =>
    cases hsn : fi.server_name with
    | none =>
      simp only [fetch_media_paths, ht, hsn, localLookup] at hl
      by_cases h1 : fsExists fs
          (osPathJoin env.local_media_directory (_file_info_to_path fi))
      · simp [h1] at hl
      · simp [ensure_media_is_in_local_cache, h1, ht, hsn]
    | some sn =>
      simp only [fetch_media_paths, ht, hsn, localLookup] at hl
      by_cases h1 : fsExists fs
          (osPathJoin env.local_media_directory (_file_info_to_path fi))
      · simp [h1] at hl
      · by_cases h2 : fsExists fs (osPathJoin env.local_media_directory
            (.remote_media_thumbnail_rel_legacy sn fi.file_id t.width
              t.height t.type))
        · simp [h1, h2] at hl
        · simp [ensure_media_is_in_local_cache, h1, ht, hsn, h2]

/-- C4: `ensure_media_is_in_local_cache` returns the primary local path
immediately when it exists; otherwise, for a remote-origin thumbnail
whose legacy local path exists, it returns the legacy path; otherwise it
tries the backends in priority order, streams the first backend result
into the primary local path and returns the primary path; and it raises
`NotFoundError` exactly when no local copy exists and no backend yields
content. -/
theorem ensure_media_correct (env : MediaStorageEnv) (fs : FS)
    (fi : FileInfo) :
    (fsExists fs (osPathJoin env.local_media_directory (_file_info_to_path fi)) =
        true →
      ensure_media_is_in_local_cache env fs fi =
        (fs, [], .ok (osPathJoin env.local_media_directory (_file_info_to_path fi)))) ∧
    (∀ t sn, fi.thumbnail = some t → fi.server_name = some sn →
      fsExists fs (osPathJoin env.local_media_directory (_file_info_to_path fi)) =
        false →
      fsExists fs (osPathJoin env.local_media_directory
        (.remote_media_thumbnail_rel_legacy sn fi.file_id t.width t.height
          t.type)) = true →
      ensure_media_is_in_local_cache env fs fi =
        (fs, [], .ok (osPathJoin env.local_media_directory
          (.remote_media_thumbnail_rel_legacy sn fi.file_id t.width t.height
            t.type)))) ∧
    (localLookup env.local_media_directory fs (fetch_media_paths fi) = none →
      (∀ (r : Responder) (tl : List Responder),
        env.storage_providers.filterMap
          (fun pr => pr.fetch (_file_info_to_path fi) fi) = r :: tl →
        (ensure_media_is_in_local_cache env fs fi).2.2 =
          .ok (osPathJoin env.local_media_directory (_file_info_to_path fi)) ∧
        fsRead (ensure_media_is_in_local_cache env fs fi).1
          (osPathJoin env.local_media_directory (_file_info_to_path fi)) =
          some (r.dataIn fs)) ∧
      ((ensure_media_is_in_local_cache env fs fi).2.2 = .error .NotFoundError ↔
        env.storage_providers.filterMap
          (fun pr => pr.fetch (_file_info_to_path fi) fi) = [])) ∧
    (∀ e, (ensure_media_is_in_local_cache env fs fi).2.2 = .error e →
      e = .NotFoundError ∧
      localLookup env.local_media_directory fs (fetch_media_paths fi) = none ∧
      env.storage_providers.filterMap
        (fun pr => pr.fetch (_file_info_to_path fi) fi) = []) := by
  refine ⟨?_, ?_, ?_, ?_⟩
  · intro h
    obtain ⟨tl, htl⟩ := fetch_media_paths_head fi
    refine ensure_local_hit env fs fi _ ?_
    rw [htl]
    simp [localLookup, h]
  · intro t sn ht hsn h1 h2
    refine ensure_local_hit env fs fi _ ?_
    have hp : fetch_media_paths fi =
        [_file_info_to_path fi,
         .remote_media_thumbnail_rel_legacy sn fi.file_id t.width t.height
           t.type] := by
      simp [fetch_media_paths, ht, hsn]
    rw [hp]
    simp [localLookup, h1, h2]
  · intro hl
    have hred := ensure_no_local_reduce env fs fi hl
    constructor
    · intro r tl hr
      rw [hred]
      simp [ensureFetchLoop_result, ensureFetchLoop_fs, hr,
        fsRead_fsWrite_self]
    · rw [hred]
      simp only [ensureFetchLoop_result]
      cases hh : (env.storage_providers.filterMap
          (fun pr => pr.fetch (_file_info_to_path fi) fi)).head? with
      | some r =>
        simp only [hh]
        constructor
        · intro habs; cases habs
        · intro habs
          rw [habs] at hh
          cases hh
      | none =>
        simp only [hh]
        rw [List.head?_eq_none_iff] at hh
        simp [hh]
  · intro e he
    cases hll : localLookup env.local_media_directory fs (fetch_media_paths fi) with
    | some lp =>
      rw [ensure_local_hit env fs fi lp hll] at he
      cases he
    | none =>
      rw [ensure_no_local_reduce env fs fi hll] at he
      simp only [ensureFetchLoop_result] at he
      cases hh : (env.storage_providers.filterMap
          (fun pr => pr.fetch (_file_info_to_path fi) fi)).head? with
      | some r => rw [hh] at he; cases he
      | none =>
        rw [hh] at he
        cases he
        rw [List.head?_eq_none_iff] at hh
        exact ⟨rfl, rfl, hh⟩

theorem ensure_media_correct_witness :
    (ensure_media_is_in_local_cache envData [] fiLocal).2.2 =
      .ok (osPathJoin envData.local_media_directory (_file_info_to_path fiLocal)) ∧
    fsRead (ensure_media_is_in_local_cache envData [] fiLocal).1
      (osPathJoin envData.local_media_directory (_file_info_to_path fiLocal)) =
      some ((Responder.providerResponder [7, 7]).dataIn []) :=
  ((ensure_media_correct envData [] fiLocal).2.2.1 (by rfl)).1
    (.providerResponder [7, 7]) [] (by rfl)

/-- C10: the provider loop of `ensure_media_is_in_local_cache` passes
only the primary resolved path to every backend fetch — the legacy
method-omitting path is used solely for the local-disk existence check —
whereas `fetch_media`, for a remote-origin thumbnail with no local copy
whose first backend misses the primary path, does invoke a backend fetch
with the legacy path. -/
theorem ensure_fetch_primary_only (env : MediaStorageEnv) (fs : FS)
    (fi : FileInfo) :
    (∀ i p, Event.providerFetchEv i p ∈
        (ensure_media_is_in_local_cache env fs fi).2.1 →
      p = _file_info_to_path fi) ∧
    (∀ t sn (pr : Provider) (rest : List Provider),
      fi.thumbnail = some t → fi.server_name = some sn →
      env.storage_providers = pr :: rest →
      localLookup env.local_media_directory fs (fetch_media_paths fi) = none →
      pr.fetch (_file_info_to_path fi) fi = none →
      Event.providerFetchEv 0
        (.remote_media_thumbnail_rel_legacy sn fi.file_id t.width t.height
          t.type) ∈ (fetch_media env fs fi).1) := by
  constructor
  · intro i p hmem
    cases hll : localLookup env.local_media_directory fs (fetch_media_paths fi) with
    | some lp =>
      rw [ensure_local_hit env fs fi lp hll] at hmem
      simp at hmem
    | none =>
      rw [ensure_no_local_reduce env fs fi hll] at hmem
      simp only [List.mem_cons] at hmem
      rcases hmem with hmem | hmem
      · cases hmem
      · obtain ⟨k, hk⟩ := ensureFetchLoop_events (_file_info_to_path fi) fi
          (osPathJoin env.local_media_directory (_file_info_to_path fi))
          env.storage_providers 0 fs _ hmem
        cases hk
        rfl
  · intro t sn pr rest ht hsn hp hl hf
    have hpaths : fetch_media_paths fi =
        [_file_info_to_path fi,
         .remote_media_thumbnail_rel_legacy sn fi.file_id t.width t.height
           t.type] := by
      simp [fetch_media_paths, ht, hsn]
    have hmem : Event.providerFetchEv 0
        (.remote_media_thumbnail_rel_legacy sn fi.file_id t.width t.height
          t.type) ∈ (tryPaths pr 0 fi (fetch_media_paths fi)).1 := by
      rw [hpaths]
      exact tryPaths_two_mem pr 0 fi _ _ hf
    simp only [fetch_media, hl, hp]
    unfold providerFetchLoop
    cases htp : tryPaths pr 0 fi (fetch_media_paths fi) with
    | mk tr o =>
      rw [htp] at hmem
      cases o with
      | some res => simpa using hmem
      | none => simp only [List.mem_append]; exact .inl hmem

theorem ensure_fetch_primary_only_witness :
    Event.providerFetchEv 0
      (.remote_media_thumbnail_rel_legacy "example.org" "rthumb" 32 32
        "image/png") ∈ (fetch_media envData [] fiRemoteThumb).1 :=
  (ensure_fetch_primary_only envData [] fiRemoteThumb).2 thumb32 "example.org"
    prOk [prData] (by rfl) (by rfl) (by rfl) (by rfl) (by rfl)

end MediaStorageModel
